import Mathlib

/-
Shallow embedding of the Go package "localcopy" (src/localcopy.go).

The package manages a local copy of an HTTP(s) resource.  Its five
operations are modelled as Lean functions over an oracle environment
(`Env`, fixing the outcome of each external call: HTTP HEAD/GET,
time.Parse, and filesystem fault injection) and an explicit filesystem
state (`World`).  Go errors are modelled by `GoError`, distinguishing
an underlying error value (`base`) from errors built with fmt.Errorf
(`errorf` wrapping a cause, `errorfMsg` a bare message), so that
"contextual wrapping" of errors is observable.  Byte streams are lists
of bytes; the caller-supplied ReadFunc becomes a function from the
full byte stream to an Except value, which is faithful because every
reader in the source consumes a bufio.Reader over the whole stream.
Times are integers; Go's t.After(u) is strict comparison u < t.
-/

namespace LocalCopy

/-- A byte stream (file contents or HTTP response body). -/
abbrev Bytes := List Nat

/-- Go error values: `base` is an underlying error from the runtime or
libraries (network, filesystem, time.Parse), `errorf msg cause` models
fmt.Errorf("msg: %v", cause), and `errorfMsg msg` models fmt.Errorf
with a literal message and no wrapped cause. -/
inductive GoError where
  | base (msg : String)
  | errorf (msg : String) (cause : GoError)
  | errorfMsg (msg : String)
deriving DecidableEq

/-- True when the error was built by fmt.Errorf, i.e. carries a
contextual human-readable description added by this package. -/
def GoError.wrapped : GoError → Bool
  | .base _ => false
  | .errorf _ _ => true
  | .errorfMsg _ => true

/-- A file on the local filesystem: its bytes and its modification time. -/
structure File where
  content : Bytes
  modTime : Int
deriving DecidableEq

/-- The filesystem state: files by path, plus the current clock value
`now`, which becomes the modification time of any file written now. -/
structure World where
  fs : String → Option File
  now : Int

/-- The slice of an HTTP response header map that the package reads:
Go's response.Header["Last-Modified"], i.e. `none` when the key is
absent and `some values` (possibly the empty list) when present. -/
structure HeaderMap where
  lastModified : Option (List String)

/-- The oracle environment: outcomes of the external calls the package
makes.  `head url` is httpClient.Head, `get url` is httpClient.Get
(returning the response body bytes), `parseTime s` is
time.Parse(time.RFC1123, s) yielding the parsed time, `openErr`,
`statErr`, `createErr` are fault injections for os.Open, os.Stat
(non-NotExist failures) and os.Create, and `copyErr path` makes
io.Copy into `path` stop with an error after writing n bytes. -/
structure Env where
  head : String → Except GoError HeaderMap
  get : String → Except GoError Bytes
  parseTime : String → Except GoError Int
  openErr : String → Option GoError
  statErr : String → Option GoError
  createErr : String → Option GoError
  copyErr : String → Option (Nat × GoError)

/-- os.Open followed by reading the whole stream: fails with the
injected error, or with a not-exist error when the file is absent;
otherwise yields the file's bytes. -/
def osOpen (env : Env) (w : World) (path : String) : Except GoError Bytes :=
  match env.openErr path with
  | some e => .error e
  | none =>
    match w.fs path with
    | none => .error (.base ("open " ++ path ++ ": no such file or directory"))
    | some f => .ok f.content

/-- Result of os.Stat as the source discriminates it: success with a
modification time, an os.IsNotExist error, or any other error. -/
inductive StatResult where
  | ok (modTime : Int)
  | notExist
  | fail (e : GoError)

/-- os.Stat: an injected non-NotExist failure takes effect first;
otherwise a missing file is NotExist and a present file yields its
modification time. -/
def osStat (env : Env) (w : World) (path : String) : StatResult :=
  match env.statErr path with
  | some e => .fail e
  | none =>
    match w.fs path with
    | none => .notExist
    | some f => .ok f.modTime

/-- Go time.Time.After: a.After(b) is true when a is strictly after b. -/
def timeAfter (a b : Int) : Bool := decide (b < a)

/-- LoadLocal: open the local file (propagating the open error
unchanged), run the ReadFunc over the stream, propagate its error
unchanged, otherwise return its value. -/
def LoadLocal {α : Type} (env : Env) (w : World) (localFilename : String)
    (readFn : Bytes → Except GoError α) : Except GoError α :=
  match osOpen env w localFilename with
  | .error err => .error err
  | .ok stream =>
    match readFn stream with
    | .error err => .error err
    | .ok value => .ok value

/-- LoadRemote: GET the URL (propagating the network error unchanged),
run the ReadFunc over the response body, propagate its error
unchanged, otherwise return its value.  Nothing is written to disk. -/
def LoadRemote {α : Type} (env : Env) (remoteURL : String)
    (readFn : Bytes → Except GoError α) : Except GoError α :=
  match env.get remoteURL with
  | .error err => .error err
  | .ok body =>
    match readFn body with
    | .error err => .error err
    | .ok value => .ok value

/-- Download: GET the URL, create the local file, and stream the body
into it.  Each failure is wrapped with fmt.Errorf.  The os.MkdirAll
error is ignored by the source; directories are not tracked in this
model.  The ReadFunc parameter is accepted but never used, exactly as
in the source.  An interrupted copy leaves a truncated file behind. -/
def Download {α : Type} (env : Env) (w : World) (remoteURL localFilename : String)
    (readFn : Bytes → Except GoError α) : World × Option GoError :=
  match env.get remoteURL with
  | .error err => (w, some (.errorf "failed to download resource" err))
  | .ok body =>
    match env.createErr localFilename with
    | some err => (w, some (.errorf "failed to open local file" err))
    | none =>
      match env.copyErr localFilename with
      | some (n, err) =>
        ({ w with fs := fun p => if p = localFilename then some ⟨body.take n, w.now⟩ else w.fs p },
         some (.errorf "failed to store resource locally" err))
      | none =>
        ({ w with fs := fun p => if p = localFilename then some ⟨body, w.now⟩ else w.fs p },
         none)

/-- NeedsUpdate: HEAD the URL (propagating the network error
unchanged); require the Last-Modified header to be present and
non-empty, with distinct fmt.Errorf errors for the two cases; parse
its first value, wrapping a parse failure; stat the local file,
treating NotExist as (true, nil) and propagating any other stat error
unchanged; otherwise report whether the remote time is strictly after
the local modification time.  Returns (world, (needsUpdate, error)):
no branch modifies the world. -/
def NeedsUpdate (env : Env) (w : World) (remoteURL localFilename : String) :
    World × (Bool × Option GoError) :=
  match env.head remoteURL with
  | .error err => (w, (false, some err))
  | .ok response =>
    match response.lastModified with
    | some lastModifiedHeader =>
      match lastModifiedHeader with
      | [] => (w, (false, some (.errorfMsg "Last-Modified header is empty")))
      | headerValue :: _ =>
        match env.parseTime headerValue with
        | .error err => (w, (false, some (.errorf "cannot parse Last-Modified header" err)))
        | .ok lastModified =>
          match osStat env w localFilename with
          | .notExist => (w, (true, none))
          | .fail err => (w, (false, some err))
          | .ok modTime => (w, (timeAfter lastModified modTime, none))
    | none => (w, (false, some (.errorfMsg "response does not contain a Last-Modified header")))

/-- Update: run NeedsUpdate; on error return (false, the error); when
no update is needed return (false, nil); otherwise run Download and
return (true, Download's error-or-success). -/
def Update {α : Type} (env : Env) (w : World) (remoteURL localFilename : String)
    (readFn : Bytes → Except GoError α) : World × (Bool × Option GoError) :=
  match NeedsUpdate env w remoteURL localFilename with
  | (w1, (needsUpdate, someErr)) =>
    match someErr with
    | some err => (w1, (false, some err))
    | none =>
      if !needsUpdate then (w1, (false, none))
      else
        match Download env w1 remoteURL localFilename readFn with
        | (w2, derr) => (w2, (true, derr))

/- Concrete test data used by witnesses and counterexamples. -/

/-- A ReadFunc that always succeeds with Unit. -/
def readOk : Bytes → Except GoError Unit := fun _ => .ok ()

/-- A ReadFunc that returns the stream itself. -/
def readId : Bytes → Except GoError Bytes := fun _b => .ok _b

/-- An RFC1123 date string as served in a Last-Modified header. -/
def dateStr : String := "Mon, 02 Jan 2006 15:04:05 GMT"

/-- A benign environment: HEAD succeeds with Last-Modified = dateStr,
GET serves [9, 8], parsing yields time 100, no fault injections. -/
def envA : Env :=
  { head := fun _ => .ok ⟨some [dateStr]⟩
  , get := fun _ => .ok [9, 8]
  , parseTime := fun _ => .ok 100
  , openErr := fun _ => none
  , statErr := fun _ => none
  , createErr := fun _ => none
  , copyErr := fun _ => none }

/-- Environment whose HEAD request fails with a network error. -/
def envHeadErr : Env := { envA with head := fun _ => .error (.base "connection refused") }

/-- Environment whose HEAD response has no Last-Modified header. -/
def envNoHdr : Env := { envA with head := fun _ => .ok ⟨none⟩ }

/-- Environment whose HEAD response has an empty Last-Modified header. -/
def envEmptyHdr : Env := { envA with head := fun _ => .ok ⟨some []⟩ }

/-- Environment in which os.Open fails with a permission error. -/
def envOpenErr : Env := { envA with openErr := fun _ => some (.base "permission denied") }

/-- Environment in which the GET request fails. -/
def envGetErr : Env := { envA with get := fun _ => .error (.base "net down") }

/-- Environment in which os.Stat fails with a non-NotExist error. -/
def envStatErr : Env := { envA with statErr := fun _ => some (.base "stat: input output error") }

/-- A world holding one file "local" with bytes [7] and mtime 50, clock 200. -/
def worldA : World :=
  { fs := fun p => if p = "local" then some ⟨[7], 50⟩ else none, now := 200 }

/-- An empty filesystem with clock 200 (after remote time 100). -/
def worldEmpty : World := { fs := fun _ => none, now := 200 }

/-- An empty filesystem with clock 50 (before remote time 100). -/
def worldEarly : World := { fs := fun _ => none, now := 50 }

/- Helper lemmas (shared). -/

/-- NeedsUpdate never changes the world: every branch returns the
input world unchanged. -/
theorem needsUpdate_fst (env : Env) (w : World) (url path : String) :
    (NeedsUpdate env w url path).1 = w := by
  unfold NeedsUpdate
  repeat' split
  all_goals rfl

/-- C1: when the HEAD request succeeds with a parseable Last-Modified
header and the local file exists and can be stat'ed, NeedsUpdate
returns (true, nil) iff the remote modification time is strictly after
the local file's modification time, and returns (false, nil) whenever
the remote time is before or equal to the local time.  The world is
unchanged. -/
theorem needsUpdate_compares_timestamps
    (env : Env) (w : World) (url path hdr : String) (rest : List String)
    (response : HeaderMap) (t : Int) (f : File)
    (hHead : env.head url = .ok response)
    (hLM : response.lastModified = some (hdr :: rest))
    (hParse : env.parseTime hdr = .ok t)
    (hStat : env.statErr path = none)
    (hFile : w.fs path = some f) :
    (NeedsUpdate env w url path = (w, (true, none)) ↔ f.modTime < t) ∧
    (t ≤ f.modTime → NeedsUpdate env w url path = (w, (false, none))) := by
  have hmain : NeedsUpdate env w url path = (w, (decide (f.modTime < t), none)) := by
    unfold NeedsUpdate osStat timeAfter
    rw [hHead]
    simp only [hLM, hParse, hStat, hFile]
  constructor
  · rw [hmain]
    constructor
    · intro h
      have : decide (f.modTime < t) = true := by
        have := congrArg (fun q => q.2.1) h
        simpa using this
      exact of_decide_eq_true this
    · intro h
      simp [decide_eq_true h]
  · intro h
    rw [hmain]
    have : decide (f.modTime < t) = false := decide_eq_false (not_lt.mpr h)
    rw [this]

/-- Witness for C1: with remote time 100 and local mtime 50, the
update is needed. -/
theorem needsUpdate_compares_timestamps_witness :
    (NeedsUpdate envA worldA "u" "local" = (worldA, (true, none)) ↔ (50 : Int) < 100) ∧
    ((100 : Int) ≤ 50 → NeedsUpdate envA worldA "u" "local" = (worldA, (false, none))) :=
  needsUpdate_compares_timestamps envA worldA "u" "local" dateStr []
    ⟨some [dateStr]⟩ 100 ⟨[7], 50⟩ rfl rfl rfl rfl rfl

/-- C3: when the HEAD request succeeds, a missing Last-Modified header
and an empty Last-Modified header each yield their own distinct error,
and the two errors differ. -/
theorem needsUpdate_header_errors
    (env : Env) (w : World) (url path : String) (response : HeaderMap)
    (hHead : env.head url = .ok response) :
    (response.lastModified = none →
      NeedsUpdate env w url path =
        (w, (false, some (.errorfMsg "response does not contain a Last-Modified header")))) ∧
    (response.lastModified = some [] →
      NeedsUpdate env w url path =
        (w, (false, some (.errorfMsg "Last-Modified header is empty")))) ∧
    GoError.errorfMsg "response does not contain a Last-Modified header" ≠
      GoError.errorfMsg "Last-Modified header is empty" := by
  refine ⟨fun hNone => ?_, fun hEmpty => ?_, by decide⟩
  · unfold NeedsUpdate
    rw [hHead]
    simp only [hNone]
  · unfold NeedsUpdate
    rw [hHead]
    simp only [hEmpty]

/-- Witness for C3: both header failures at concrete environments. -/
theorem needsUpdate_header_errors_witness :
    NeedsUpdate envNoHdr worldA "u" "local" =
      (worldA, (false, some (.errorfMsg "response does not contain a Last-Modified header"))) ∧
    NeedsUpdate envEmptyHdr worldA "u" "local" =
      (worldA, (false, some (.errorfMsg "Last-Modified header is empty"))) :=
  ⟨(needsUpdate_header_errors envNoHdr worldA "u" "local" ⟨none⟩ rfl).1 rfl,
   (needsUpdate_header_errors envEmptyHdr worldA "u" "local" ⟨some []⟩ rfl).2.1 rfl⟩

/-- C4: with a valid Last-Modified header, a non-existent local path
yields (true, nil) with no error, and any other stat failure is
surfaced unchanged to the caller. -/
theorem needsUpdate_missing_local
    (env : Env) (w : World) (url path hdr : String) (rest : List String)
    (response : HeaderMap) (t : Int)
    (hHead : env.head url = .ok response)
    (hLM : response.lastModified = some (hdr :: rest))
    (hParse : env.parseTime hdr = .ok t) :
    (env.statErr path = none → w.fs path = none →
      NeedsUpdate env w url path = (w, (true, none))) ∧
    (∀ e, env.statErr path = some e →
      NeedsUpdate env w url path = (w, (false, some e))) := by
  constructor
  · intro hStat hFile
    unfold NeedsUpdate osStat
    rw [hHead]
    simp only [hLM, hParse, hStat, hFile]
  · intro e hStat
    unfold NeedsUpdate osStat
    rw [hHead]
    simp only [hLM, hParse, hStat]

/-- Witness for C4: a missing local file is stale; an injected stat
failure is surfaced. -/
theorem needsUpdate_missing_local_witness :
    NeedsUpdate envA worldEmpty "u" "p" = (worldEmpty, (true, none)) ∧
    NeedsUpdate envStatErr worldA "u" "local" =
      (worldA, (false, some (.base "stat: input output error"))) :=
  ⟨(needsUpdate_missing_local envA worldEmpty "u" "p" dateStr []
      ⟨some [dateStr]⟩ 100 rfl rfl rfl).1 rfl rfl,
   (needsUpdate_missing_local envStatErr worldA "u" "local" dateStr []
      ⟨some [dateStr]⟩ 100 rfl rfl rfl).2 (.base "stat: input output error") rfl⟩

/-- C5: Download never invokes the ReadFunc it accepts: for any two
parsing functions (even of different result types), its resulting
world and error are identical. -/
theorem download_ignores_readfn
    {α β : Type} (env : Env) (w : World) (url path : String)
    (readFn1 : Bytes → Except GoError α) (readFn2 : Bytes → Except GoError β) :
    Download env w url path readFn1 = Download env w url path readFn2 := rfl

/-- C10: NeedsUpdate never returns (true, non-nil error): in every
execution either the boolean is false or the error is nil. -/
theorem needsUpdate_no_true_with_error (env : Env) (w : World) (url path : String) :
    (NeedsUpdate env w url path).2.1 = false ∨ (NeedsUpdate env w url path).2.2 = none := by
  unfold NeedsUpdate
  repeat' split
  all_goals simp

/-- When the freshness check reports an error, Update propagates it
with no download and an untouched world. -/
theorem update_of_check_err
    {α : Type} (env : Env) (w : World) (url path : String)
    (readFn : Bytes → Except GoError α) (e : GoError)
    (hErr : (NeedsUpdate env w url path).2.2 = some e) :
    Update env w url path readFn = (w, (false, some e)) := by
  rcases hN : NeedsUpdate env w url path with ⟨w1, b, oe⟩
  have hw1 : w1 = w := by
    have h := needsUpdate_fst env w url path
    rw [hN] at h
    exact h
  rw [hw1] at hN
  have h2 : oe = some e := by rw [hN] at hErr; exact hErr
  unfold Update
  rw [hN, h2]

/-- When the freshness check reports (false, nil), Update returns
(false, nil) with an untouched world. -/
theorem update_of_check_false
    {α : Type} (env : Env) (w : World) (url path : String)
    (readFn : Bytes → Except GoError α)
    (hFalse : (NeedsUpdate env w url path).2 = (false, none)) :
    Update env w url path readFn = (w, (false, none)) := by
  rcases hN : NeedsUpdate env w url path with ⟨w1, b, oe⟩
  have hw1 : w1 = w := by
    have h := needsUpdate_fst env w url path
    rw [hN] at h
    exact h
  rw [hw1] at hN
  have h2 : (b, oe) = ((false : Bool), (none : Option GoError)) := by
    rw [hN] at hFalse; exact hFalse
  injection h2 with hb hoe
  subst hb
  subst hoe
  unfold Update
  rw [hN]
  rfl

/-- When the freshness check reports (true, nil), Update runs Download
and returns (true, Download's error-or-success) from Download's world. -/
theorem update_of_check_true
    {α : Type} (env : Env) (w : World) (url path : String)
    (readFn : Bytes → Except GoError α)
    (hTrue : (NeedsUpdate env w url path).2 = (true, none)) :
    Update env w url path readFn =
      ((Download env w url path readFn).1, (true, (Download env w url path readFn).2)) := by
  rcases hN : NeedsUpdate env w url path with ⟨w1, b, oe⟩
  have hw1 : w1 = w := by
    have h := needsUpdate_fst env w url path
    rw [hN] at h
    exact h
  rw [hw1] at hN
  have h2 : (b, oe) = ((true : Bool), (none : Option GoError)) := by
    rw [hN] at hTrue; exact hTrue
  injection h2 with hb hoe
  subst hb
  subst hoe
  unfold Update
  rw [hN]
  change (match Download env w url path readFn with
    | (w2, derr) => (w2, ((true : Bool), derr))) = _
  rcases hD : Download env w url path readFn with ⟨w2, derr⟩
  rfl

/-- C2: Update composes the freshness check and the download: a check
error is propagated with no download; a false check returns (false,
nil) with the world untouched; a true check runs Download and returns
(true, Download's error-or-success), so the boolean reflects whether a
download was attempted regardless of Download's outcome. -/
theorem update_composes
    {α : Type} (env : Env) (w : World) (url path : String)
    (readFn : Bytes → Except GoError α) :
    (∀ e, (NeedsUpdate env w url path).2.2 = some e →
      Update env w url path readFn = (w, (false, some e))) ∧
    ((NeedsUpdate env w url path).2 = (false, none) →
      Update env w url path readFn = (w, (false, none))) ∧
    ((NeedsUpdate env w url path).2 = (true, none) →
      Update env w url path readFn =
        ((Download env w url path readFn).1, (true, (Download env w url path readFn).2))) :=
  ⟨fun e hErr => update_of_check_err env w url path readFn e hErr,
   fun hFalse => update_of_check_false env w url path readFn hFalse,
   fun hTrue => update_of_check_true env w url path readFn hTrue⟩

/-- Witness for C2: a HEAD network error is propagated by Update with
no download attempted. -/
theorem update_composes_witness :
    Update envHeadErr worldA "u" "local" readOk =
      (worldA, (false, some (.base "connection refused"))) :=
  (update_composes envHeadErr worldA "u" "local" readOk).1 (.base "connection refused") rfl

/-- C6: once the file is opened (LoadLocal) or the GET succeeds
(LoadRemote), each operation returns exactly what the ReadFunc
returns, value and error unmodified. -/
theorem load_returns_readfn_result
    {α : Type} (env : Env) (w : World) (path url : String)
    (readFn : Bytes → Except GoError α) (stream body : Bytes)
    (hOpen : osOpen env w path = .ok stream)
    (hGet : env.get url = .ok body) :
    LoadLocal env w path readFn = readFn stream ∧
    LoadRemote env url readFn = readFn body := by
  constructor
  · unfold LoadLocal
    rw [hOpen]
    cases h : readFn stream <;> simp [h]
  · unfold LoadRemote
    rw [hGet]
    cases h : readFn body <;> simp [h]

/-- Witness for C6: the identity ReadFunc is passed through by both
operations on concrete data. -/
theorem load_returns_readfn_result_witness :
    LoadLocal envA worldA "local" readId = readId [7] ∧
    LoadRemote envA "u" readId = readId [9, 8] :=
  load_returns_readfn_result envA worldA "local" "u" readId [7] [9, 8] rfl rfl

/-- C7: NeedsUpdate never mutates the filesystem, and Update leaves
the world untouched whenever the freshness check returns false or
errors; only Download mutates the local copy. -/
theorem needsUpdate_no_mutation
    {α : Type} (env : Env) (w : World) (url path : String)
    (readFn : Bytes → Except GoError α) :
    (NeedsUpdate env w url path).1 = w ∧
    ((NeedsUpdate env w url path).2.1 = false ∨ (NeedsUpdate env w url path).2.2 ≠ none →
      (Update env w url path readFn).1 = w) := by
  rcases hN : NeedsUpdate env w url path with ⟨w1, b, oe⟩
  have hw1 : w1 = w := by
    have h := needsUpdate_fst env w url path
    rw [hN] at h
    exact h
  rw [hw1] at hN
  refine ⟨hw1, fun h => ?_⟩
  unfold Update
  rw [hN]
  rcases oe with _ | e
  · have hb : b = false := by
      rcases h with hB | hNe
      · exact hB
      · exact absurd rfl hNe
    subst hb
    rfl
  · rfl

/-- Witness for C7: a failing freshness check leaves the world
unchanged through both NeedsUpdate and Update. -/
theorem needsUpdate_no_mutation_witness :
    (NeedsUpdate envHeadErr worldA "u" "local").1 = worldA ∧
    (Update envHeadErr worldA "u" "local" readOk).1 = worldA :=
  ⟨(needsUpdate_no_mutation envHeadErr worldA "u" "local" readOk).1,
   (needsUpdate_no_mutation envHeadErr worldA "u" "local" readOk).2 (Or.inl rfl)⟩

/-- C8 counterexample: with the remote Last-Modified time (100) after
the clock at download time (50), the downloaded file's modification
time (50) stays before the remote time, so the second Update call
against the unchanged remote downloads again — it does not return
(false, nil). -/
theorem synchronize_idempotent_cex :
    (Update envA worldEarly "u" "p" readOk).2 = (true, none) ∧
    (Update envA (Update envA worldEarly "u" "p" readOk).1 "u" "p" readOk).2 ≠
      ((false : Bool), (none : Option GoError)) := by
  constructor
  · rfl
  · intro h
    have h2 : ((true : Bool), (none : Option GoError)) = (false, none) := h
    simp at h2

/-- C8 (amended): calling Update twice in succession against an
unchanged remote resource, when the first call's freshness check
reports stale and its download succeeds, performs one download on the
first call and none on the second, which returns (false, nil) with the
world unchanged — provided the remote modification time is not after
the clock value stamped on the downloaded file. -/
theorem synchronize_idempotent
    {α : Type} (env : Env) (w : World) (url path hdr : String) (rest : List String)
    (response : HeaderMap) (t : Int) (body : Bytes)
    (readFn : Bytes → Except GoError α)
    (hHead : env.head url = .ok response)
    (hLM : response.lastModified = some (hdr :: rest))
    (hParse : env.parseTime hdr = .ok t)
    (hStat : env.statErr path = none)
    (hGet : env.get url = .ok body)
    (hCreate : env.createErr path = none)
    (hCopy : env.copyErr path = none)
    (hFresh : (NeedsUpdate env w url path).2 = (true, none))
    (hClock : t ≤ w.now) :
    (Update env w url path readFn).2 = (true, none) ∧
    Update env (Update env w url path readFn).1 url path readFn =
      ((Update env w url path readFn).1, (false, none)) := by
  have hD : Download env w url path readFn =
      ({ w with fs := fun p => if p = path then some ⟨body, w.now⟩ else w.fs p }, none) := by
    unfold Download
    rw [hGet, hCreate, hCopy]
  have hU1 : Update env w url path readFn =
      ({ w with fs := fun p => if p = path then some ⟨body, w.now⟩ else w.fs p },
       (true, none)) := by
    have h := update_of_check_true env w url path readFn hFresh
    rw [hD] at h
    exact h
  have hTA : timeAfter t w.now = false := by
    unfold timeAfter
    exact decide_eq_false (not_lt.mpr hClock)
  have hN2 : (NeedsUpdate env
      { w with fs := fun p => if p = path then some ⟨body, w.now⟩ else w.fs p }
      url path).2 = (false, none) := by
    unfold NeedsUpdate osStat
    rw [hHead]
    simp [hLM, hParse, hStat, hTA]
  constructor
  · rw [hU1]
  · rw [hU1]
    exact update_of_check_false env _ url path readFn hN2

/-- Witness for C8's amended theorem: a fresh download at clock 200 of
a remote resource modified at time 100 is not repeated by a second
Update call. -/
theorem synchronize_idempotent_witness :
    (Update envA worldEmpty "u" "p" readOk).2 = (true, none) ∧
    Update envA (Update envA worldEmpty "u" "p" readOk).1 "u" "p" readOk =
      ((Update envA worldEmpty "u" "p" readOk).1, (false, none)) :=
  synchronize_idempotent envA worldEmpty "u" "p" dateStr [] ⟨some [dateStr]⟩ 100 [9, 8]
    readOk rfl rfl rfl rfl rfl rfl rfl rfl (by decide)

/-- C9 counterexample: LoadLocal returns the os.Open failure exactly
as produced by the runtime, with no contextual wrapping added, so not
every error of the five operations carries contextual wrapping. -/
theorem error_wrapping_cex :
    LoadLocal envOpenErr worldA "local" readOk = .error (.base "permission denied") ∧
    (GoError.base "permission denied").wrapped = false :=
  ⟨rfl, rfl⟩

/-- C9 (amended): no error is recovered or retried internally, and the
wrapping discipline is split: every error Download returns carries
contextual wrapping; every error NeedsUpdate returns either carries
contextual wrapping or is exactly the underlying HEAD or stat error
passed through unchanged; LoadLocal and LoadRemote propagate open,
GET, and parsing-function errors entirely unchanged, with no wrapping. -/
theorem error_propagation_amended
    {α : Type} (env : Env) (w : World) (url path : String)
    (readFn : Bytes → Except GoError α) :
    (∀ e, (Download env w url path readFn).2 = some e → e.wrapped = true) ∧
    (∀ e, (NeedsUpdate env w url path).2.2 = some e →
      e.wrapped = true ∨ env.head url = .error e ∨ env.statErr path = some e) ∧
    (∀ e, env.head url = .error e → NeedsUpdate env w url path = (w, (false, some e))) ∧
    (∀ e, osOpen env w path = .error e → LoadLocal env w path readFn = .error e) ∧
    (∀ e stream, osOpen env w path = .ok stream → readFn stream = .error e →
      LoadLocal env w path readFn = .error e) ∧
    (∀ e, env.get url = .error e → LoadRemote env url readFn = .error e) ∧
    (∀ e body, env.get url = .ok body → readFn body = .error e →
      LoadRemote env url readFn = .error e) := by
  refine ⟨fun e h => ?_, fun e h => ?_, fun e hH => ?_, fun e hO => ?_,
    fun e stream hO hR => ?_, fun e hG => ?_, fun e body hG hR => ?_⟩
  · unfold Download at h
    rcases hG : env.get url with eg | body
    · rw [hG] at h
      have h3 : some (GoError.errorf "failed to download resource" eg) = some e := h
      injection h3 with h4
      rw [← h4]
      rfl
    · rw [hG] at h
      rcases hC : env.createErr path with _ | ec
      · rw [hC] at h
        rcases hK : env.copyErr path with _ | ⟨n, ek⟩
        · rw [hK] at h
          exact Option.noConfusion (show (none : Option GoError) = some e from h)
        · rw [hK] at h
          have h3 : some (GoError.errorf "failed to store resource locally" ek) = some e := h
          injection h3 with h4
          rw [← h4]
          rfl
      · rw [hC] at h
        have h3 : some (GoError.errorf "failed to open local file" ec) = some e := h
        injection h3 with h4
        rw [← h4]
        rfl
  · unfold NeedsUpdate osStat at h
    rcases hH : env.head url with eh | response
    · rw [hH] at h
      have h3 : some eh = some e := h
      injection h3 with h4
      subst h4
      exact Or.inr (Or.inl rfl)
    · rw [hH] at h
      rcases hLM : response.lastModified with _ | vals
      · simp only [hLM] at h
        have h3 : some (GoError.errorfMsg "response does not contain a Last-Modified header")
            = some e := h
        injection h3 with h4
        rw [← h4]
        exact Or.inl rfl
      · simp only [hLM] at h
        rcases vals with _ | ⟨v, rest⟩
        · have h3 : some (GoError.errorfMsg "Last-Modified header is empty") = some e := h
          injection h3 with h4
          rw [← h4]
          exact Or.inl rfl
        · rcases hP : env.parseTime v with ep | t
          · simp only [hP] at h
            have h3 : some (GoError.errorf "cannot parse Last-Modified header" ep)
                = some e := h
            injection h3 with h4
            rw [← h4]
            exact Or.inl rfl
          · simp only [hP] at h
            rcases hS : env.statErr path with _ | es
            · simp only [hS] at h
              rcases hF : w.fs path with _ | f
              · simp only [hF] at h
                exact Option.noConfusion (show (none : Option GoError) = some e from h)
              · simp only [hF] at h
                exact Option.noConfusion (show (none : Option GoError) = some e from h)
            · simp only [hS] at h
              have h3 : some es = some e := h
              injection h3 with h4
              subst h4
              exact Or.inr (Or.inr rfl)
  · unfold NeedsUpdate
    rw [hH]
  · unfold LoadLocal
    rw [hO]
  · unfold LoadLocal
    rw [hO]
    simp only [hR]
  · unfold LoadRemote
    rw [hG]
  · unfold LoadRemote
    rw [hG]
    simp only [hR]

/-- Witness for C9's amended theorem: an open failure is passed
through LoadLocal unchanged and unwrapped, while a GET failure comes
out of Download with contextual wrapping. -/
theorem error_propagation_amended_witness :
    LoadLocal envOpenErr worldA "local" readOk = .error (.base "permission denied") ∧
    (GoError.errorf "failed to download resource" (.base "net down")).wrapped = true :=
  ⟨(error_propagation_amended envOpenErr worldA "u" "local" readOk).2.2.2.1
      (.base "permission denied") rfl,
   (error_propagation_amended envGetErr worldA "u" "p" readOk).1
      (.errorf "failed to download resource" (.base "net down")) rfl⟩

end LocalCopy
